import Mathlib

/-!
# Verification of the TPA authorization core (`apps/backend/agent_v35.py`)

Shallow embedding of the `EnhancedTPAWithFinalAuth` class: its record types,
its four in-memory dictionaries and its six operations.  Monetary values
(Python floats) are modelled as rationals; `datetime.now()` values are passed
in as explicit parameters; the Letter Generator (`generate_letter`) and Gap
Analyzer (`analyze_final_gap`) collaborators are modelled by their outcome:
`some text` when the call returns `text`, `none` when it raises.  A raising
collaborator call makes the operation propagate the exception (`Outcome.raised`),
keeping exactly the mutations that the Python code performed before the call.
-/

namespace TPA

/-- The `AuthorizationStatus` enum of `agent_v35.py`. -/
inductive AuthorizationStatus
  | pending
  | queryRaised
  | queryReplied
  | approved
  | rejected
  | partiallyApproved
deriving DecidableEq

/-- One entry of a record's `queries` list:
`{"date": ..., "query": ..., "response": ...}`. -/
structure QueryEntry where
  date : String
  query : String
  response : String
deriving DecidableEq

/-- The `PreAuthorizationRecord` dataclass. `request_date`/`approval_date` are
modelled as opaque timestamp values (`Nat` / `String`). -/
structure PreAuthorizationRecord where
  case_id : String
  request_date : Nat
  requested_amount : ℚ
  approval_status : AuthorizationStatus
  approved_amount : Option ℚ
  approval_number : Option String
  approval_date : Option String
  queries : List QueryEntry
  rejection_reason : Option String
deriving DecidableEq

/-- The `FinalAuthorizationRecord` dataclass.  The `deductions` dict is modelled
as an association list from category label to amount. -/
structure FinalAuthorizationRecord where
  case_id : String
  request_date : Nat
  final_bill_amount : ℚ
  pre_auth_approved : ℚ
  additional_amount_requested : ℚ
  approval_status : AuthorizationStatus
  approved_amount : Option ℚ
  approval_number : Option String
  approval_date : Option String
  queries : List QueryEntry
  deductions : List (String × ℚ)
  rejection_reason : Option String
  documents_submitted : List String
deriving DecidableEq

/-- Patient data (`self.cases[case_id]`) is an arbitrary Python dict; we keep
its entries as an association list.  Python truthiness of a dict (`not patient`)
is emptiness of this list. -/
abbrev PatientData : Type := List (String × String)

/-- Discharge data dict passed to `generate_final_auth_request`.  The
`final_bill_amount` key is required by the code (read unconditionally); all
other keys only feed the letter text, kept as opaque entries.  Any such dict
holds at least the `final_bill_amount` key, so it is non-empty and truthy. -/
structure DischargeData where
  final_bill_amount : ℚ
  other_fields : List (String × String)
deriving DecidableEq

/-- Python-dict lookup `d.get(k)` over an association list. -/
def dictGet {α : Type} : List (String × α) → String → Option α
  | [], _ => none
  | (k', v) :: rest, k => if k' = k then some v else dictGet rest k

/-- Python-dict assignment `d[k] = v` over an association list: replaces the
binding of `k` when present, otherwise appends it. -/
def dictSet {α : Type} : List (String × α) → String → α → List (String × α)
  | [], k, v => [(k, v)]
  | (k', v') :: rest, k, v =>
    if k' = k then (k, v) :: rest else (k', v') :: dictSet rest k v

/-- The four in-memory dictionaries of `EnhancedTPAWithFinalAuth.__init__`. -/
structure TPAState where
  cases : List (String × PatientData)
  pre_authorizations : List (String × PreAuthorizationRecord)
  final_authorizations : List (String × FinalAuthorizationRecord)
  discharge_records : List (String × DischargeData)
deriving DecidableEq

/-- Freshly constructed tracker: all four dictionaries empty. -/
def initState : TPAState := ⟨[], [], [], []⟩

/-- Result of an operation: the dict the Python method returns, an
`{"error": ...}` dict, or an exception propagated from a collaborator call. -/
inductive Outcome (α : Type)
  | ok (v : α)
  | err (msg : String)
  | raised
deriving DecidableEq

/-- The `approval_data` dict for `record_preauth_approval`: the three keys the
code reads.  The route supplies concrete values, so they are modelled as
present (a missing key would raise `KeyError` in Python, out of scope here). -/
structure ApprovalData where
  approved_amount : ℚ
  approval_number : String
  approval_date : String
deriving DecidableEq

/-- The `approval_data` dict for `record_final_auth_approval`; `deductions` is
read with `approval_data.get("deductions", {})`, hence optional. -/
structure FinalApprovalData where
  approved_amount : ℚ
  approval_number : String
  approval_date : String
  deductions : Option (List (String × ℚ))
deriving DecidableEq

/-- Return payload of `send_preauth_request`. -/
structure SendPreauthResult where
  status : String
  case_id : String
  requested_amount : ℚ
deriving DecidableEq

/-- Return payload of `generate_final_auth_request`. -/
structure FinalGenResult where
  status : String
  request_letter_html : String
  additional_requested : ℚ
deriving DecidableEq

/-- Return payload of `record_final_auth_approval` (the gap analysis dict). -/
structure GapAnalysis where
  status : String
  final_bill : ℚ
  approved_amount : ℚ
  gap_amount : ℚ
  gap_percentage : ℚ
  deductions : List (String × ℚ)
  ai_analysis : String
  requires_escalation : Bool
deriving DecidableEq

/-- Operation `send_preauth_request(case_id, patient_data, estimated_cost)`:
unconditionally registers the case and (over)writes a fresh Pending
pre-authorization record. -/
def send_preauth_request (s : TPAState) (case_id : String)
    (patient_data : PatientData) (estimated_cost : ℚ) (now : Nat) :
    TPAState × Outcome SendPreauthResult :=
  let s1 := { s with cases := dictSet s.cases case_id patient_data }
  let r : PreAuthorizationRecord :=
    { case_id := case_id, request_date := now,
      requested_amount := estimated_cost,
      approval_status := .pending, approved_amount := none,
      approval_number := none, approval_date := none, queries := [],
      rejection_reason := none }
  let s2 := { s1 with pre_authorizations := dictSet s1.pre_authorizations case_id r }
  (s2, .ok ⟨"pre_auth_sent", case_id, estimated_cost⟩)

/-- Operation `handle_preauth_query(case_id, query_content, ...)`.  `gen` is the outcome
of the `generate_letter` collaborator call; `now` the iso timestamp.  The
dataclass `pre_auth` is always truthy, so `not pre_auth` is exactly
"no record for `case_id`". -/
def handle_preauth_query (s : TPAState) (case_id query_content : String)
    (gen : Option String) (now : String) : TPAState × Outcome String :=
  match dictGet s.pre_authorizations case_id with
  | none => (s, .err "Pre-auth not found")
  | some pre_auth =>
    match gen with
    | none => (s, .raised)
    | some html =>
      let pre_auth' := { pre_auth with
        queries := pre_auth.queries ++ [⟨now, query_content, html⟩],
        approval_status := .queryReplied }
      ({ s with pre_authorizations :=
          dictSet s.pre_authorizations case_id pre_auth' },
       .ok html)

/-- Operation `record_preauth_approval(case_id, approval_data)`. -/
def record_preauth_approval (s : TPAState) (case_id : String)
    (approval_data : ApprovalData) : TPAState × Outcome ℚ :=
  match dictGet s.pre_authorizations case_id with
  | none => (s, .err "Pre-auth not found")
  | some pre_auth =>
    let pre_auth' := { pre_auth with
      approval_status := .approved,
      approved_amount := some approval_data.approved_amount,
      approval_number := some approval_data.approval_number,
      approval_date := some approval_data.approval_date }
    ({ s with pre_authorizations :=
        dictSet s.pre_authorizations case_id pre_auth' },
     .ok approval_data.approved_amount)

/-- Operation `generate_final_auth_request(case_id, discharge_data, ...)`.  The guard is
`if not pre_auth or not patient`: the record is a truthy dataclass, but
`patient` is a dict, falsy when empty.  Note the source stores
`discharge_records[case_id]` (line 92) before the `generate_letter` call
(line 120), so on a collaborator exception the discharge record persists. -/
def generate_final_auth_request (s : TPAState) (case_id : String)
    (discharge_data : DischargeData) (gen : Option String) (now : Nat) :
    TPAState × Outcome FinalGenResult :=
  match dictGet s.pre_authorizations case_id, dictGet s.cases case_id with
  | some pre_auth, some patient =>
    if patient.isEmpty then (s, .err "Pre-auth or patient data not found")
    else
      let s1 := { s with
        discharge_records := dictSet s.discharge_records case_id discharge_data }
      let final_bill := discharge_data.final_bill_amount
      -- Python `pre_auth.approved_amount or 0`: None and 0.0 both give 0,
      -- any other float is returned unchanged — exactly `Option.getD · 0`.
      let pre_auth_amount := pre_auth.approved_amount.getD 0
      let additional_needed := max 0 (final_bill - pre_auth_amount)
      match gen with
      | none => (s1, .raised)
      | some html =>
        let r : FinalAuthorizationRecord :=
          { case_id := case_id, request_date := now,
            final_bill_amount := final_bill,
            pre_auth_approved := pre_auth_amount,
            additional_amount_requested := additional_needed,
            approval_status := .pending, approved_amount := none,
            approval_number := none, approval_date := none, queries := [],
            deductions := [], rejection_reason := none,
            documents_submitted := ["Discharge Summary", "Final Bill (itemized)",
              "Investigation Reports", "Pharmacy Bills", "OT Notes", "IPD Charts"] }
        ({ s1 with final_authorizations :=
            dictSet s1.final_authorizations case_id r },
         .ok ⟨"final_auth_generated", html, additional_needed⟩)
  | _, _ => (s, .err "Pre-auth or patient data not found")

/-- Operation `handle_final_auth_query(case_id, query_content, ...)`.  The guard is
`if not final_auth or not discharge`; every stored discharge dict holds the
`final_bill_amount` key, hence is non-empty and truthy, so the discharge test
reduces to presence. -/
def handle_final_auth_query (s : TPAState) (case_id query_content : String)
    (gen : Option String) (now : String) : TPAState × Outcome String :=
  match dictGet s.final_authorizations case_id,
        dictGet s.discharge_records case_id with
  | some final_auth, some _ =>
    match gen with
    | none => (s, .raised)
    | some html =>
      let final_auth' := { final_auth with
        queries := final_auth.queries ++ [⟨now, query_content, html⟩],
        approval_status := .queryReplied }
      ({ s with final_authorizations :=
          dictSet s.final_authorizations case_id final_auth' },
       .ok html)
  | _, _ => (s, .err "Final auth or discharge data not found")

/-- Operation `record_final_auth_approval(case_id, approval_data)`.  `ana` is the
outcome of the `analyze_final_gap` collaborator call, made after all
mutations (source lines 157–161 precede line 167).  `gap_pct` is
`(gap / billed * 100) if billed else 0.0`; float truthiness of `billed` is
`billed ≠ 0`. -/
def record_final_auth_approval (s : TPAState) (case_id : String)
    (approval_data : FinalApprovalData) (ana : Option String) :
    TPAState × Outcome GapAnalysis :=
  match dictGet s.final_authorizations case_id with
  | none => (s, .err "Final auth not found")
  | some final_auth =>
    let final_auth' := { final_auth with
      approval_status := .approved,
      approved_amount := some approval_data.approved_amount,
      approval_number := some approval_data.approval_number,
      approval_date := some approval_data.approval_date,
      deductions := approval_data.deductions.getD [] }
    let s1 := { s with
      final_authorizations := dictSet s.final_authorizations case_id final_auth' }
    let billed := final_auth'.final_bill_amount
    let approved := approval_data.approved_amount
    let gap := billed - approved
    let gap_pct : ℚ := if billed ≠ 0 then gap / billed * 100 else 0
    match ana with
    | none => (s1, .raised)
    | some analysis =>
      (s1, .ok ⟨"final_auth_approved", billed, approved, gap, gap_pct,
        final_auth'.deductions, analysis, decide (gap_pct > 20)⟩)

/-! ## Operation sequences and reachability -/

/-- One call to the core, with all external inputs (caller data, clock values,
collaborator outcomes) packaged as arguments. -/
inductive Op
  | sendPre (case_id : String) (patient_data : PatientData)
      (estimated_cost : ℚ) (now : Nat)
  | preQuery (case_id query_content : String) (gen : Option String) (now : String)
  | preApprove (case_id : String) (approval_data : ApprovalData)
  | finalGen (case_id : String) (discharge_data : DischargeData)
      (gen : Option String) (now : Nat)
  | finalQuery (case_id query_content : String) (gen : Option String) (now : String)
  | finalApprove (case_id : String) (approval_data : FinalApprovalData)
      (ana : Option String)
deriving DecidableEq

/-- State after one call (the return value projected away). -/
def step (s : TPAState) : Op → TPAState
  | .sendPre c p cost now => (send_preauth_request s c p cost now).1
  | .preQuery c q gen now => (handle_preauth_query s c q gen now).1
  | .preApprove c d => (record_preauth_approval s c d).1
  | .finalGen c d gen now => (generate_final_auth_request s c d gen now).1
  | .finalQuery c q gen now => (handle_final_auth_query s c q gen now).1
  | .finalApprove c d ana => (record_final_auth_approval s c d ana).1

/-- State after a sequence of calls starting from the fresh tracker. -/
def run (ops : List Op) : TPAState := ops.foldl step initState

/-- A state reachable from the fresh tracker by some sequence of calls. -/
def Reachable (s : TPAState) : Prop := ∃ ops : List Op, run ops = s

/-! ## Association-list (Python dict) lemmas -/

theorem dictGet_dictSet_self {α : Type} (d : List (String × α)) (k : String)
    (v : α) : dictGet (dictSet d k v) k = some v := by
  induction d with
  | nil => simp [dictGet, dictSet]
  | cons hd tl ih =>
    obtain ⟨a, b⟩ := hd
    by_cases h : a = k
    · simp [dictSet, h, dictGet]
    · simp [dictSet, h, dictGet, ih]

theorem dictGet_dictSet_ne {α : Type} (d : List (String × α)) (k k' : String)
    (v : α) (h : k' ≠ k) : dictGet (dictSet d k v) k' = dictGet d k' := by
  have hk : k ≠ k' := fun e => h e.symm
  induction d with
  | nil => simp [dictGet, dictSet, hk]
  | cons hd tl ih =>
    obtain ⟨a, b⟩ := hd
    by_cases ha : a = k
    · subst ha
      simp [dictSet, dictGet, hk]
    · simp [dictSet, ha, dictGet, ih]

theorem mem_dictSet {α : Type} (d : List (String × α)) (k : String) (v : α)
    (x : String × α) (hx : x ∈ dictSet d k v) : x = (k, v) ∨ x ∈ d := by
  induction d with
  | nil =>
    simp only [dictSet, List.mem_singleton] at hx
    exact Or.inl hx
  | cons hd tl ih =>
    obtain ⟨a, b⟩ := hd
    simp only [dictSet] at hx
    by_cases h : a = k
    · rw [if_pos h] at hx
      rcases List.mem_cons.mp hx with h1 | h1
      · exact Or.inl h1
      · exact Or.inr (List.mem_cons_of_mem _ h1)
    · rw [if_neg h] at hx
      rcases List.mem_cons.mp hx with h1 | h1
      · exact Or.inr (List.mem_cons.mpr (Or.inl h1))
      · rcases ih h1 with h2 | h2
        · exact Or.inl h2
        · exact Or.inr (List.mem_cons_of_mem _ h2)

theorem dictGet_dictSet_eq_some {α : Type} (d : List (String × α))
    (k k' : String) (v : α) (w : α)
    (h : dictGet (dictSet d k v) k' = some w) :
    w = v ∨ dictGet d k' = some w := by
  by_cases hk : k' = k
  · subst hk
    rw [dictGet_dictSet_self] at h
    exact Or.inl (Option.some.inj h).symm
  · rw [dictGet_dictSet_ne _ _ _ _ hk] at h
    exact Or.inr h

theorem dictGet_mem {α : Type} (d : List (String × α)) (k : String) (v : α)
    (h : dictGet d k = some v) : (k, v) ∈ d := by
  induction d with
  | nil => simp [dictGet] at h
  | cons hd tl ih =>
    obtain ⟨a, b⟩ := hd
    simp only [dictGet] at h
    by_cases ha : a = k
    · rw [if_pos ha] at h
      subst ha
      injection h with hb
      subst hb
      exact List.mem_cons_self _ _
    · rw [if_neg ha] at h
      exact List.mem_cons_of_mem _ (ih h)

/-! ## Frame and characterization lemmas for the six operations -/

theorem sendPre_frame (s : TPAState) (c : String) (pd : PatientData) (cost : ℚ)
    (now : Nat) :
    (send_preauth_request s c pd cost now).1.final_authorizations = s.final_authorizations ∧
    (send_preauth_request s c pd cost now).1.discharge_records = s.discharge_records ∧
    (send_preauth_request s c pd cost now).1.cases = dictSet s.cases c pd ∧
    (send_preauth_request s c pd cost now).1.pre_authorizations =
      dictSet s.pre_authorizations c
        { case_id := c, request_date := now, requested_amount := cost,
          approval_status := .pending, approved_amount := none,
          approval_number := none, approval_date := none, queries := [],
          rejection_reason := none } :=
  ⟨rfl, rfl, rfl, rfl⟩

theorem preQuery_frame (s : TPAState) (c q : String) (gen : Option String)
    (now : String) :
    (handle_preauth_query s c q gen now).1.cases = s.cases ∧
    (handle_preauth_query s c q gen now).1.final_authorizations = s.final_authorizations ∧
    (handle_preauth_query s c q gen now).1.discharge_records = s.discharge_records := by
  unfold handle_preauth_query
  cases hres : dictGet s.pre_authorizations c with
  | none => exact ⟨rfl, rfl, rfl⟩
  | some pa =>
    cases gen with
    | none => exact ⟨rfl, rfl, rfl⟩
    | some html => exact ⟨rfl, rfl, rfl⟩

theorem preQuery_pre_char (s : TPAState) (c q : String) (gen : Option String)
    (now : String) :
    (handle_preauth_query s c q gen now).1.pre_authorizations = s.pre_authorizations ∨
    ∃ pa html, dictGet s.pre_authorizations c = some pa ∧ gen = some html ∧
      (handle_preauth_query s c q gen now).1.pre_authorizations =
        dictSet s.pre_authorizations c
          { pa with queries := pa.queries ++ [⟨now, q, html⟩],
                    approval_status := .queryReplied } := by
  unfold handle_preauth_query
  cases hres : dictGet s.pre_authorizations c with
  | none => exact Or.inl rfl
  | some pa =>
    cases gen with
    | none => exact Or.inl rfl
    | some html => exact Or.inr ⟨pa, html, rfl, rfl, rfl⟩

theorem preApprove_frame (s : TPAState) (c : String) (ad : ApprovalData) :
    (record_preauth_approval s c ad).1.cases = s.cases ∧
    (record_preauth_approval s c ad).1.final_authorizations = s.final_authorizations ∧
    (record_preauth_approval s c ad).1.discharge_records = s.discharge_records := by
  unfold record_preauth_approval
  cases hres : dictGet s.pre_authorizations c with
  | none => exact ⟨rfl, rfl, rfl⟩
  | some pa => exact ⟨rfl, rfl, rfl⟩

theorem preApprove_pre_char (s : TPAState) (c : String) (ad : ApprovalData) :
    (record_preauth_approval s c ad).1.pre_authorizations = s.pre_authorizations ∨
    ∃ pa, dictGet s.pre_authorizations c = some pa ∧
      (record_preauth_approval s c ad).1.pre_authorizations =
        dictSet s.pre_authorizations c
          { pa with approval_status := .approved,
                    approved_amount := some ad.approved_amount,
                    approval_number := some ad.approval_number,
                    approval_date := some ad.approval_date } := by
  unfold record_preauth_approval
  cases hres : dictGet s.pre_authorizations c with
  | none => exact Or.inl rfl
  | some pa => exact Or.inr ⟨pa, rfl, rfl⟩

theorem finalGen_frame (s : TPAState) (c : String) (dd : DischargeData)
    (gen : Option String) (now : Nat) :
    (generate_final_auth_request s c dd gen now).1.cases = s.cases ∧
    (generate_final_auth_request s c dd gen now).1.pre_authorizations =
      s.pre_authorizations := by
  unfold generate_final_auth_request
  cases hp : dictGet s.pre_authorizations c with
  | none => cases hc : dictGet s.cases c <;> exact ⟨rfl, rfl⟩
  | some pa =>
    cases hc : dictGet s.cases c with
    | none => exact ⟨rfl, rfl⟩
    | some pat =>
      by_cases he : pat.isEmpty = true
      · dsimp only
        rw [if_pos he]
        exact ⟨rfl, rfl⟩
      · dsimp only
        rw [if_neg he]
        cases gen with
        | none => exact ⟨rfl, rfl⟩
        | some html => exact ⟨rfl, rfl⟩

theorem finalGen_final_char (s : TPAState) (c : String) (dd : DischargeData)
    (gen : Option String) (now : Nat) :
    (generate_final_auth_request s c dd gen now).1.final_authorizations =
      s.final_authorizations ∨
    ∃ pa, dictGet s.pre_authorizations c = some pa ∧ ∃ html, gen = some html ∧
      (generate_final_auth_request s c dd gen now).1.final_authorizations =
        dictSet s.final_authorizations c
          { case_id := c, request_date := now,
            final_bill_amount := dd.final_bill_amount,
            pre_auth_approved := pa.approved_amount.getD 0,
            additional_amount_requested :=
              max 0 (dd.final_bill_amount - pa.approved_amount.getD 0),
            approval_status := .pending, approved_amount := none,
            approval_number := none, approval_date := none, queries := [],
            deductions := [], rejection_reason := none,
            documents_submitted := ["Discharge Summary", "Final Bill (itemized)",
              "Investigation Reports", "Pharmacy Bills", "OT Notes", "IPD Charts"] } := by
  unfold generate_final_auth_request
  cases hp : dictGet s.pre_authorizations c with
  | none => cases hc : dictGet s.cases c <;> exact Or.inl rfl
  | some pa =>
    cases hc : dictGet s.cases c with
    | none => exact Or.inl rfl
    | some pat =>
      by_cases he : pat.isEmpty = true
      · dsimp only
        rw [if_pos he]
        exact Or.inl rfl
      · dsimp only
        rw [if_neg he]
        cases gen with
        | none => exact Or.inl rfl
        | some html => exact Or.inr ⟨pa, rfl, html, rfl, rfl⟩

theorem finalQuery_frame (s : TPAState) (c q : String) (gen : Option String)
    (now : String) :
    (handle_final_auth_query s c q gen now).1.cases = s.cases ∧
    (handle_final_auth_query s c q gen now).1.pre_authorizations = s.pre_authorizations ∧
    (handle_final_auth_query s c q gen now).1.discharge_records = s.discharge_records := by
  unfold handle_final_auth_query
  cases hf : dictGet s.final_authorizations c with
  | none => cases hd : dictGet s.discharge_records c <;> exact ⟨rfl, rfl, rfl⟩
  | some fa =>
    cases hd : dictGet s.discharge_records c with
    | none => exact ⟨rfl, rfl, rfl⟩
    | some dr =>
      cases gen with
      | none => exact ⟨rfl, rfl, rfl⟩
      | some html => exact ⟨rfl, rfl, rfl⟩

theorem finalQuery_final_char (s : TPAState) (c q : String) (gen : Option String)
    (now : String) :
    (handle_final_auth_query s c q gen now).1.final_authorizations =
      s.final_authorizations ∨
    ∃ fa html, dictGet s.final_authorizations c = some fa ∧ gen = some html ∧
      (handle_final_auth_query s c q gen now).1.final_authorizations =
        dictSet s.final_authorizations c
          { fa with queries := fa.queries ++ [⟨now, q, html⟩],
                    approval_status := .queryReplied } := by
  unfold handle_final_auth_query
  cases hf : dictGet s.final_authorizations c with
  | none => cases hd : dictGet s.discharge_records c <;> exact Or.inl rfl
  | some fa =>
    cases hd : dictGet s.discharge_records c with
    | none => exact Or.inl rfl
    | some dr =>
      cases gen with
      | none => exact Or.inl rfl
      | some html => exact Or.inr ⟨fa, html, rfl, rfl, rfl⟩

theorem finalApprove_frame (s : TPAState) (c : String) (fad : FinalApprovalData)
    (ana : Option String) :
    (record_final_auth_approval s c fad ana).1.cases = s.cases ∧
    (record_final_auth_approval s c fad ana).1.pre_authorizations =
      s.pre_authorizations ∧
    (record_final_auth_approval s c fad ana).1.discharge_records =
      s.discharge_records := by
  unfold record_final_auth_approval
  cases hf : dictGet s.final_authorizations c with
  | none => exact ⟨rfl, rfl, rfl⟩
  | some fa =>
    cases ana with
    | none => exact ⟨rfl, rfl, rfl⟩
    | some t => exact ⟨rfl, rfl, rfl⟩

theorem finalApprove_final_char (s : TPAState) (c : String)
    (fad : FinalApprovalData) (ana : Option String) :
    (record_final_auth_approval s c fad ana).1.final_authorizations =
      s.final_authorizations ∨
    ∃ fa, dictGet s.final_authorizations c = some fa ∧
      (record_final_auth_approval s c fad ana).1.final_authorizations =
        dictSet s.final_authorizations c
          { fa with approval_status := .approved,
                    approved_amount := some fad.approved_amount,
                    approval_number := some fad.approval_number,
                    approval_date := some fad.approval_date,
                    deductions := fad.deductions.getD [] } := by
  unfold record_final_auth_approval
  cases hf : dictGet s.final_authorizations c with
  | none => exact Or.inl rfl
  | some fa =>
    cases ana with
    | none => exact Or.inr ⟨fa, rfl, rfl⟩
    | some t => exact Or.inr ⟨fa, rfl, rfl⟩

/-! ## Concrete sample data used to instantiate the theorems -/

/-- A non-empty (hence truthy) patient dict. -/
def patW : PatientData := [("name", "A")]

/-- A pending final-authorization record: bill 100, pre-auth snapshot 50. -/
def faW : FinalAuthorizationRecord :=
  { case_id := "C1", request_date := 0, final_bill_amount := 100,
    pre_auth_approved := 50, additional_amount_requested := 50,
    approval_status := .pending, approved_amount := none,
    approval_number := none, approval_date := none, queries := [],
    deductions := [], rejection_reason := none, documents_submitted := [] }

/-- A state holding exactly the final record `faW` under case id `C1`. -/
def stW : TPAState := { initState with final_authorizations := [("C1", faW)] }

/-- A pre-authorization record approved at 450. -/
def paW : PreAuthorizationRecord :=
  { case_id := "C1", request_date := 0, requested_amount := 500,
    approval_status := .approved, approved_amount := some 450,
    approval_number := some "AP1", approval_date := some "d1", queries := [],
    rejection_reason := none }

/-- A state holding the registered case `C1` and the approved record `paW`. -/
def stPre : TPAState :=
  { initState with cases := [("C1", patW)], pre_authorizations := [("C1", paW)] }

/-! ## Claims -/

/-- Claim C1: when `recordApproval` is called on the Final-Authorization
Tracker for an existing final record, the returned gap analysis satisfies
`gapAmount = finalBillAmount - approvedAmount`,
`gapPercentage = gapAmount / finalBillAmount * 100` when `finalBillAmount` is
nonzero and `0` otherwise, and `requiresEscalation` is true iff
`gapPercentage > 20` (so false at exactly 20). -/
theorem C1_final_approval_gap_analysis (s : TPAState) (cid : String)
    (d : FinalApprovalData) (ana : String) (fa : FinalAuthorizationRecord)
    (h : dictGet s.final_authorizations cid = some fa) :
    ∃ g : GapAnalysis,
      (record_final_auth_approval s cid d (some ana)).2 = .ok g ∧
      g.gap_amount = fa.final_bill_amount - d.approved_amount ∧
      (fa.final_bill_amount ≠ 0 →
        g.gap_percentage = g.gap_amount / fa.final_bill_amount * 100) ∧
      (fa.final_bill_amount = 0 → g.gap_percentage = 0) ∧
      (g.requires_escalation = true ↔ g.gap_percentage > 20) := by
  unfold record_final_auth_approval
  rw [h]
  refine ⟨_, rfl, rfl, ?_, ?_, ?_⟩
  · intro hne
    exact if_pos hne
  · intro hz
    exact if_neg (fun hne => hne hz)
  · exact decide_eq_true_iff

/-- Witness for C1: bill 100, approved 80 — gap 20, gap percentage exactly
20, and the escalation flag is characterised by the strict inequality. -/
theorem C1_witness :
    ∃ g : GapAnalysis,
      (record_final_auth_approval stW "C1" ⟨80, "A2", "d2", none⟩ (some "x")).2 = .ok g ∧
      g.gap_amount = (100 : ℚ) - 80 ∧
      ((100 : ℚ) ≠ 0 → g.gap_percentage = g.gap_amount / 100 * 100) ∧
      ((100 : ℚ) = 0 → g.gap_percentage = 0) ∧
      (g.requires_escalation = true ↔ g.gap_percentage > 20) :=
  C1_final_approval_gap_analysis stW "C1" ⟨80, "A2", "d2", none⟩ "x" faW rfl

/-- Claim C2: when the Final-Authorization Tracker's `createRequest` succeeds,
the created record's `additional_amount_requested` equals
`max 0 (finalBillAmount - preAuthApproved)` where `preAuthApproved` is the
linked pre-authorization's approved amount when recorded and 0 otherwise; in
particular it is the difference when the bill covers the pre-approval and 0
when the bill is below it. -/
theorem C2_additional_amount_requested (s : TPAState) (cid : String)
    (dd : DischargeData) (html : String) (now : Nat)
    (pa : PreAuthorizationRecord) (patient : PatientData)
    (hpa : dictGet s.pre_authorizations cid = some pa)
    (hpat : dictGet s.cases cid = some patient)
    (hne : patient.isEmpty = false) :
    ∃ r : FinalAuthorizationRecord,
      dictGet (generate_final_auth_request s cid dd (some html) now).1.final_authorizations
        cid = some r ∧
      r.additional_amount_requested =
        max 0 (dd.final_bill_amount - pa.approved_amount.getD 0) ∧
      (pa.approved_amount.getD 0 ≤ dd.final_bill_amount →
        r.additional_amount_requested =
          dd.final_bill_amount - pa.approved_amount.getD 0) ∧
      (dd.final_bill_amount < pa.approved_amount.getD 0 →
        r.additional_amount_requested = 0) := by
  have hcond : ¬patient.isEmpty = true := by simp [hne]
  unfold generate_final_auth_request
  rw [hpa, hpat]
  dsimp only
  rw [if_neg hcond]
  dsimp only
  refine ⟨_, dictGet_dictSet_self _ _ _, rfl, ?_, ?_⟩
  · intro hle
    exact max_eq_right (sub_nonneg.mpr hle)
  · intro hlt
    exact max_eq_left (le_of_lt (sub_neg.mpr hlt))

/-- Witness for C2: approved pre-authorization of 450, final bill 600 — the
created final record requests exactly the additional 150. -/
theorem C2_witness :
    ∃ r : FinalAuthorizationRecord,
      dictGet (generate_final_auth_request stPre "C1" ⟨600, []⟩ (some "L") 1).1.final_authorizations
        "C1" = some r ∧
      r.additional_amount_requested = max 0 ((600 : ℚ) - (some (450 : ℚ)).getD 0) ∧
      ((some (450 : ℚ)).getD 0 ≤ (600 : ℚ) →
        r.additional_amount_requested = (600 : ℚ) - (some (450 : ℚ)).getD 0) ∧
      ((600 : ℚ) < (some (450 : ℚ)).getD 0 →
        r.additional_amount_requested = 0) :=
  C2_additional_amount_requested stPre "C1" ⟨600, []⟩ "L" 1 paW patW rfl rfl rfl

/-- Claim C4: every operation on a `caseId` with no corresponding record —
`recordQuery`/`recordApproval` on the Pre-Authorization Tracker,
`createRequest`/`recordQuery`/`recordApproval` on the Final-Authorization
Tracker — returns a not-found error and leaves the entire state
unchanged. -/
theorem C4_not_found_leaves_state_unchanged (s : TPAState) (cid : String)
    (q1 now1 : String) (gen1 : Option String) (ad : ApprovalData)
    (dd : DischargeData) (gen2 : Option String) (n2 : Nat)
    (q3 now3 : String) (gen3 : Option String)
    (fad : FinalApprovalData) (ana : Option String)
    (hpre : dictGet s.pre_authorizations cid = none)
    (hfin : dictGet s.final_authorizations cid = none) :
    handle_preauth_query s cid q1 gen1 now1 = (s, .err "Pre-auth not found") ∧
    record_preauth_approval s cid ad = (s, .err "Pre-auth not found") ∧
    generate_final_auth_request s cid dd gen2 n2 =
      (s, .err "Pre-auth or patient data not found") ∧
    handle_final_auth_query s cid q3 gen3 now3 =
      (s, .err "Final auth or discharge data not found") ∧
    record_final_auth_approval s cid fad ana = (s, .err "Final auth not found") := by
  refine ⟨?_, ?_, ?_, ?_, ?_⟩
  · unfold handle_preauth_query
    rw [hpre]
  · unfold record_preauth_approval
    rw [hpre]
  · unfold generate_final_auth_request
    rw [hpre]
  · unfold handle_final_auth_query
    rw [hfin]
  · unfold record_final_auth_approval
    rw [hfin]

/-- Witness for C4 at the fresh tracker state, where no case is known. -/
theorem C4_witness :
    handle_preauth_query initState "C9" "q" (some "h") "t" =
      (initState, .err "Pre-auth not found") ∧
    record_preauth_approval initState "C9" ⟨1, "A", "d"⟩ =
      (initState, .err "Pre-auth not found") ∧
    generate_final_auth_request initState "C9" ⟨5, []⟩ (some "h") 0 =
      (initState, .err "Pre-auth or patient data not found") ∧
    handle_final_auth_query initState "C9" "q" (some "h") "t" =
      (initState, .err "Final auth or discharge data not found") ∧
    record_final_auth_approval initState "C9" ⟨1, "A", "d", none⟩ (some "x") =
      (initState, .err "Final auth not found") :=
  C4_not_found_leaves_state_unchanged initState "C9" "q" "t" (some "h") ⟨1, "A", "d"⟩
    ⟨5, []⟩ (some "h") 0 "q" "t" (some "h") ⟨1, "A", "d", none⟩ (some "x") rfl rfl

/-- Claim C10: over-approval is accepted by the Final-Authorization Tracker:
when `approvedAmount > finalBillAmount` (amounts being non-negative monetary
values), `recordApproval` succeeds — the record is marked Approved — and
returns a negative `gapAmount`, a negative `gapPercentage` when the bill is
nonzero, and `requiresEscalation = false`; the gap is not clamped to zero. -/
theorem C10_over_approval_negative_gap (s : TPAState) (cid : String)
    (d : FinalApprovalData) (ana : String) (fa : FinalAuthorizationRecord)
    (h : dictGet s.final_authorizations cid = some fa)
    (hnn : 0 ≤ fa.final_bill_amount)
    (hover : fa.final_bill_amount < d.approved_amount) :
    ∃ g : GapAnalysis,
      (record_final_auth_approval s cid d (some ana)).2 = .ok g ∧
      g.gap_amount < 0 ∧
      (fa.final_bill_amount ≠ 0 → g.gap_percentage < 0) ∧
      g.requires_escalation = false ∧
      ∃ fa', dictGet (record_final_auth_approval s cid d (some ana)).1.final_authorizations
          cid = some fa' ∧
        fa'.approval_status = .approved ∧
        fa'.approved_amount = some d.approved_amount := by
  have hgap : fa.final_bill_amount - d.approved_amount < 0 := sub_neg.mpr hover
  unfold record_final_auth_approval
  rw [h]
  dsimp only
  have hpct : ∀ hne : fa.final_bill_amount ≠ 0,
      fa.final_bill_amount - d.approved_amount < 0 →
      (fa.final_bill_amount - d.approved_amount) / fa.final_bill_amount * 100 < 0 := by
    intro hne hneg
    have hpos : 0 < fa.final_bill_amount := lt_of_le_of_ne hnn (Ne.symm hne)
    exact mul_neg_of_neg_of_pos (div_neg_of_neg_of_pos hneg hpos) (by norm_num)
  refine ⟨_, rfl, hgap, ?_, ?_, ?_⟩
  · intro hne
    rw [if_pos hne]
    exact hpct hne hgap
  · refine decide_eq_false ?_
    by_cases hne : fa.final_bill_amount ≠ 0
    · rw [if_pos hne]
      exact not_lt_of_lt (lt_trans (hpct hne hgap) (by norm_num))
    · rw [if_neg hne]
      norm_num
  · exact ⟨_, dictGet_dictSet_self _ _ _, rfl, rfl⟩

/-- Witness for C10: bill 100, approved 150 — gap -50, gap percentage -50,
no escalation, record approved. -/
theorem C10_witness :
    ∃ g : GapAnalysis,
      (record_final_auth_approval stW "C1" ⟨150, "A2", "d2", none⟩ (some "x")).2 = .ok g ∧
      g.gap_amount < 0 ∧
      ((100 : ℚ) ≠ 0 → g.gap_percentage < 0) ∧
      g.requires_escalation = false ∧
      ∃ fa', dictGet (record_final_auth_approval stW "C1" ⟨150, "A2", "d2", none⟩
          (some "x")).1.final_authorizations "C1" = some fa' ∧
        fa'.approval_status = .approved ∧
        fa'.approved_amount = some ((150 : ℚ)) :=
  C10_over_approval_negative_gap stW "C1" ⟨150, "A2", "d2", none⟩ "x" faW rfl
    (by norm_num [faW]) (by norm_num [faW])

/-- Counterexample to claim C3: in a state with a registered case and an
approved pre-authorization, calling the Final-Authorization Tracker's
`createRequest` with a failing Letter Generator still changes the core's
state — the discharge record is stored before the generation call. -/
theorem C3_counterexample :
    (generate_final_auth_request stPre "C1" ⟨600, []⟩ none 1).1.discharge_records ≠
      stPre.discharge_records := by
  simp [generate_final_auth_request, stPre, initState, paW, patW, dictGet, dictSet]

/-- Claim C3 (amended): when the Letter Generator call fails, the two
`recordQuery` operations leave the state entirely unchanged, and the
Final-Authorization Tracker's `createRequest` leaves status, query sequences,
pre-authorization records, case registrations and final-authorization records
unchanged — but it has already stored the discharge record (the source writes
`discharge_records[case_id]` before calling the generator), so the discharge
component may differ. -/
theorem C3_amended_generation_failure (s : TPAState) (cid1 q1 now1 : String)
    (cid2 q2 now2 : String) (cid3 : String) (dd : DischargeData) (n3 : Nat) :
    (handle_preauth_query s cid1 q1 none now1).1 = s ∧
    (handle_final_auth_query s cid2 q2 none now2).1 = s ∧
    (generate_final_auth_request s cid3 dd none n3).1.cases = s.cases ∧
    (generate_final_auth_request s cid3 dd none n3).1.pre_authorizations =
      s.pre_authorizations ∧
    (generate_final_auth_request s cid3 dd none n3).1.final_authorizations =
      s.final_authorizations := by
  refine ⟨?_, ?_, (finalGen_frame s cid3 dd none n3).1,
    (finalGen_frame s cid3 dd none n3).2, ?_⟩
  · unfold handle_preauth_query
    cases hres : dictGet s.pre_authorizations cid1 with
    | none => rfl
    | some pa => rfl
  · unfold handle_final_auth_query
    cases hf : dictGet s.final_authorizations cid2 with
    | none => rfl
    | some fa =>
      cases hd : dictGet s.discharge_records cid2 with
      | none => rfl
      | some dr => rfl
  · rcases finalGen_final_char s cid3 dd none n3 with h | ⟨pa, hpa, html, hh, hchar⟩
    · exact h
    · exact absurd hh (by simp)

/-- Claim C7 (code behavior at the failing input): a second `createRequest`
for a case that already has a pre-authorization does not return a
duplicate-case error; it reports success and silently replaces the existing
record — here the approved record for `C1` (requested 500, approved 450) is
replaced by a fresh Pending record with requested amount 600. -/
theorem C7_duplicate_create_overwrites :
    (send_preauth_request stPre "C1" patW 600 1).2 =
      .ok ⟨"pre_auth_sent", "C1", 600⟩ ∧
    dictGet (send_preauth_request stPre "C1" patW 600 1).1.pre_authorizations "C1" =
      some { case_id := "C1", request_date := 1, requested_amount := 600,
             approval_status := .pending, approved_amount := none,
             approval_number := none, approval_date := none, queries := [],
             rejection_reason := none } ∧
    dictGet stPre.pre_authorizations "C1" = some paW ∧
    paW.approval_status = .approved ∧ paW.requested_amount = 500 := by
  refine ⟨rfl, ?_, rfl, rfl, rfl⟩
  simp [send_preauth_request, stPre, initState, paW, patW, dictGet, dictSet]

/-- Counterexample to claim C8: a second `recordApproval` call for the same
case changes the already-set approval fields — re-approving `C1` (stored
amount 450) with amount 400 overwrites the stored amount. -/
theorem C8_counterexample :
    (dictGet stPre.pre_authorizations "C1").map (·.approved_amount) =
      some (some 450) ∧
    (dictGet (record_preauth_approval stPre "C1" ⟨400, "AP2", "d2"⟩).1.pre_authorizations
      "C1").map (·.approved_amount) = some (some 400) := by
  constructor
  · rfl
  · simp [record_preauth_approval, stPre, initState, paW, patW, dictGet, dictSet]

/-- Operations other than the Pre-Authorization Tracker's `createRequest` and
`recordApproval` for the given case (the two writers of its approval fields). -/
def preservesPreApprovalFields (cid : String) : Op → Bool
  | .sendPre c _ _ _ => c != cid
  | .preApprove c _ => c != cid
  | _ => true

/-- Claim C8 (amended): a pre-authorization's `approvedAmount`,
`approvalNumber` and `approvalDate` are changed only by `recordApproval`
itself (a repeated call overwrites them with its new inputs) and by
`createRequest`'s silent re-creation; every other core operation leaves them
exactly as they are. -/
theorem C8_amended_approval_fields_stable (s : TPAState) (cid : String)
    (p : PreAuthorizationRecord) (op : Op)
    (h : dictGet s.pre_authorizations cid = some p)
    (hop : preservesPreApprovalFields cid op = true) :
    ∃ p', dictGet (step s op).pre_authorizations cid = some p' ∧
      p'.approved_amount = p.approved_amount ∧
      p'.approval_number = p.approval_number ∧
      p'.approval_date = p.approval_date := by
  cases op with
  | sendPre c pd cost now =>
    have hc : cid ≠ c := Ne.symm (by simpa [preservesPreApprovalFields] using hop)
    dsimp only [step]
    rw [(sendPre_frame s c pd cost now).2.2.2, dictGet_dictSet_ne _ _ _ _ hc]
    exact ⟨p, h, rfl, rfl, rfl⟩
  | preQuery c q gen now =>
    dsimp only [step]
    rcases preQuery_pre_char s c q gen now with hch | ⟨pa, html, hpa, hgen, hch⟩
    · rw [hch]
      exact ⟨p, h, rfl, rfl, rfl⟩
    · rw [hch]
      by_cases hc : cid = c
      · subst hc
        rw [dictGet_dictSet_self]
        rw [h] at hpa
        obtain rfl := Option.some.inj hpa
        exact ⟨_, rfl, rfl, rfl, rfl⟩
      · rw [dictGet_dictSet_ne _ _ _ _ hc]
        exact ⟨p, h, rfl, rfl, rfl⟩
  | preApprove c ad =>
    have hc : cid ≠ c := Ne.symm (by simpa [preservesPreApprovalFields] using hop)
    dsimp only [step]
    rcases preApprove_pre_char s c ad with hch | ⟨pa, hpa, hch⟩
    · rw [hch]
      exact ⟨p, h, rfl, rfl, rfl⟩
    · rw [hch, dictGet_dictSet_ne _ _ _ _ hc]
      exact ⟨p, h, rfl, rfl, rfl⟩
  | finalGen c dd gen now =>
    dsimp only [step]
    rw [(finalGen_frame s c dd gen now).2]
    exact ⟨p, h, rfl, rfl, rfl⟩
  | finalQuery c q gen now =>
    dsimp only [step]
    rw [(finalQuery_frame s c q gen now).2.1]
    exact ⟨p, h, rfl, rfl, rfl⟩
  | finalApprove c fad ana =>
    dsimp only [step]
    rw [(finalApprove_frame s c fad ana).2.1]
    exact ⟨p, h, rfl, rfl, rfl⟩

/-- Witness for C8 (amended): a query round on the approved record `paW`
leaves its approval fields unchanged. -/
theorem C8_witness :
    ∃ p', dictGet (step stPre (.preQuery "C1" "q" (some "h") "t")).pre_authorizations
        "C1" = some p' ∧
      p'.approved_amount = paW.approved_amount ∧
      p'.approval_number = paW.approval_number ∧
      p'.approval_date = paW.approval_date :=
  C8_amended_approval_fields_stable stPre "C1" paW
    (.preQuery "C1" "q" (some "h") "t") rfl rfl

/-! ## Status reachability machinery (claims C5 and C6) -/

/-- The statuses the core can actually write: `Pending` at creation,
`QueryReplied` on a query round, `Approved` on approval. -/
def coreStatus (st : AuthorizationStatus) : Prop :=
  st = .pending ∨ st = .queryReplied ∨ st = .approved

/-- Every stored record, in either tracker, has a core-writable status. -/
def StatusInv (s : TPAState) : Prop :=
  (∀ x ∈ s.pre_authorizations, coreStatus x.2.approval_status) ∧
  (∀ x ∈ s.final_authorizations, coreStatus x.2.approval_status)

theorem statusInv_step (s : TPAState) (op : Op) (h : StatusInv s) :
    StatusInv (step s op) := by
  obtain ⟨h1, h2⟩ := h
  cases op with
  | sendPre c pd cost now =>
    dsimp only [step]
    refine ⟨?_, ?_⟩
    · intro x hx
      rw [(sendPre_frame s c pd cost now).2.2.2] at hx
      rcases mem_dictSet _ _ _ _ hx with rfl | hx'
      · exact Or.inl rfl
      · exact h1 x hx'
    · intro x hx
      rw [(sendPre_frame s c pd cost now).1] at hx
      exact h2 x hx
  | preQuery c q gen now =>
    dsimp only [step]
    refine ⟨?_, ?_⟩
    · intro x hx
      rcases preQuery_pre_char s c q gen now with hch | ⟨pa, html, hpa, hgen, hch⟩
      · rw [hch] at hx
        exact h1 x hx
      · rw [hch] at hx
        rcases mem_dictSet _ _ _ _ hx with rfl | hx'
        · exact Or.inr (Or.inl rfl)
        · exact h1 x hx'
    · intro x hx
      rw [(preQuery_frame s c q gen now).2.1] at hx
      exact h2 x hx
  | preApprove c ad =>
    dsimp only [step]
    refine ⟨?_, ?_⟩
    · intro x hx
      rcases preApprove_pre_char s c ad with hch | ⟨pa, hpa, hch⟩
      · rw [hch] at hx
        exact h1 x hx
      · rw [hch] at hx
        rcases mem_dictSet _ _ _ _ hx with rfl | hx'
        · exact Or.inr (Or.inr rfl)
        · exact h1 x hx'
    · intro x hx
      rw [(preApprove_frame s c ad).2.1] at hx
      exact h2 x hx
  | finalGen c dd gen now =>
    dsimp only [step]
    refine ⟨?_, ?_⟩
    · intro x hx
      rw [(finalGen_frame s c dd gen now).2] at hx
      exact h1 x hx
    · intro x hx
      rcases finalGen_final_char s c dd gen now with hch | ⟨pa, hpa, html, hgen, hch⟩
      · rw [hch] at hx
        exact h2 x hx
      · rw [hch] at hx
        rcases mem_dictSet _ _ _ _ hx with rfl | hx'
        · exact Or.inl rfl
        · exact h2 x hx'
  | finalQuery c q gen now =>
    dsimp only [step]
    refine ⟨?_, ?_⟩
    · intro x hx
      rw [(finalQuery_frame s c q gen now).2.1] at hx
      exact h1 x hx
    · intro x hx
      rcases finalQuery_final_char s c q gen now with hch | ⟨fa, html, hfa, hgen, hch⟩
      · rw [hch] at hx
        exact h2 x hx
      · rw [hch] at hx
        rcases mem_dictSet _ _ _ _ hx with rfl | hx'
        · exact Or.inr (Or.inl rfl)
        · exact h2 x hx'
  | finalApprove c fad ana =>
    dsimp only [step]
    refine ⟨?_, ?_⟩
    · intro x hx
      rw [(finalApprove_frame s c fad ana).2.1] at hx
      exact h1 x hx
    · intro x hx
      rcases finalApprove_final_char s c fad ana with hch | ⟨fa, hfa, hch⟩
      · rw [hch] at hx
        exact h2 x hx
      · rw [hch] at hx
        rcases mem_dictSet _ _ _ _ hx with rfl | hx'
        · exact Or.inr (Or.inr rfl)
        · exact h2 x hx'

theorem statusInv_foldl (ops : List Op) (s : TPAState) (h : StatusInv s) :
    StatusInv (ops.foldl step s) := by
  induction ops generalizing s with
  | nil => exact h
  | cons op rest ih => exact ih _ (statusInv_step s op h)

theorem statusInv_init : StatusInv initState := by
  constructor <;> intro x hx <;> simp [initState] at hx

/-- Operations used to reach a state with an Approved pre-authorization. -/
def c5ops : List Op :=
  [.sendPre "C1" patW 500 0, .preApprove "C1" ⟨450, "AP1", "d1"⟩]

/-- Counterexample to claim C5: `C1` is Approved in the reachable state
`run c5ops`, yet `recordQuery` — an operation of the core — moves its status
out of Approved, to QueryReplied. -/
theorem C5_counterexample :
    (dictGet (run c5ops).pre_authorizations "C1").map (·.approval_status) =
      some .approved ∧
    (dictGet (step (run c5ops) (.preQuery "C1" "q" (some "h") "t")).pre_authorizations
      "C1").map (·.approval_status) = some .queryReplied := by
  constructor
  · rfl
  · rfl

/-- Claim C5 (amended): in every reachable state every record's status is
Pending, QueryReplied or Approved — Rejected and PartiallyApproved are never
produced by the core, hence vacuously terminal — but Approved itself is not
terminal: a successful `recordQuery` on any existing pre-authorization record
(an Approved one included) sets its status to QueryReplied. -/
theorem C5_amended_status_reachability (s : TPAState) (h : Reachable s) :
    StatusInv s ∧
    ∀ (cid q html now : String) (p : PreAuthorizationRecord),
      dictGet s.pre_authorizations cid = some p →
      ∃ p', dictGet (step s (.preQuery cid q (some html) now)).pre_authorizations
          cid = some p' ∧ p'.approval_status = .queryReplied := by
  constructor
  · obtain ⟨ops, rfl⟩ := h
    exact statusInv_foldl ops initState statusInv_init
  · intro cid q html now p hp
    dsimp only [step]
    unfold handle_preauth_query
    rw [hp]
    dsimp only
    exact ⟨_, dictGet_dictSet_self _ _ _, rfl⟩

/-- Witness for C5 (amended) at the concrete reachable state `run c5ops`. -/
theorem C5_witness :
    StatusInv (run c5ops) ∧
    ∀ (cid q html now : String) (p : PreAuthorizationRecord),
      dictGet (run c5ops).pre_authorizations cid = some p →
      ∃ p', dictGet (step (run c5ops) (.preQuery cid q (some html) now)).pre_authorizations
          cid = some p' ∧ p'.approval_status = .queryReplied :=
  C5_amended_status_reachability (run c5ops) ⟨c5ops, rfl⟩

/-- The invariant that actually holds of pre-authorization records: an
Approved record has its amount set, and a record with a set amount is either
still Approved or has moved on to QueryReplied via a later query round. -/
def PreApprovalInv (s : TPAState) : Prop :=
  ∀ x ∈ s.pre_authorizations,
    (x.2.approval_status = .approved → x.2.approved_amount.isSome = true) ∧
    (x.2.approved_amount.isSome = true →
      x.2.approval_status = .approved ∨ x.2.approval_status = .queryReplied)

theorem preApprovalInv_step (s : TPAState) (op : Op) (h : PreApprovalInv s) :
    PreApprovalInv (step s op) := by
  cases op with
  | sendPre c pd cost now =>
    intro x hx
    dsimp only [step] at hx
    rw [(sendPre_frame s c pd cost now).2.2.2] at hx
    rcases mem_dictSet _ _ _ _ hx with rfl | hx'
    · exact ⟨(fun e => nomatch e), (fun e => nomatch e)⟩
    · exact h x hx'
  | preQuery c q gen now =>
    intro x hx
    dsimp only [step] at hx
    rcases preQuery_pre_char s c q gen now with hch | ⟨pa, html, hpa, hgen, hch⟩
    · rw [hch] at hx
      exact h x hx
    · rw [hch] at hx
      rcases mem_dictSet _ _ _ _ hx with rfl | hx'
      · exact ⟨(fun e => nomatch e), fun _ => Or.inr rfl⟩
      · exact h x hx'
  | preApprove c ad =>
    intro x hx
    dsimp only [step] at hx
    rcases preApprove_pre_char s c ad with hch | ⟨pa, hpa, hch⟩
    · rw [hch] at hx
      exact h x hx
    · rw [hch] at hx
      rcases mem_dictSet _ _ _ _ hx with rfl | hx'
      · exact ⟨fun _ => rfl, fun _ => Or.inl rfl⟩
      · exact h x hx'
  | finalGen c dd gen now =>
    intro x hx
    dsimp only [step] at hx
    rw [(finalGen_frame s c dd gen now).2] at hx
    exact h x hx
  | finalQuery c q gen now =>
    intro x hx
    dsimp only [step] at hx
    rw [(finalQuery_frame s c q gen now).2.1] at hx
    exact h x hx
  | finalApprove c fad ana =>
    intro x hx
    dsimp only [step] at hx
    rw [(finalApprove_frame s c fad ana).2.1] at hx
    exact h x hx

theorem preApprovalInv_foldl (ops : List Op) (s : TPAState)
    (h : PreApprovalInv s) : PreApprovalInv (ops.foldl step s) := by
  induction ops generalizing s with
  | nil => exact h
  | cons op rest ih => exact ih _ (preApprovalInv_step s op h)

theorem preApprovalInv_init : PreApprovalInv initState := by
  intro x hx
  simp [initState] at hx

/-- Operations reaching a record that is QueryReplied with its amount set. -/
def c6ops : List Op :=
  [.sendPre "C1" patW 500 0, .preApprove "C1" ⟨450, "AP1", "d1"⟩,
   .preQuery "C1" "why" (some "resp") "t1"]

/-- Counterexample to claim C6: after approving `C1` and then recording a
query, the reachable state `run c6ops` holds a pre-authorization whose
`approvedAmount` is set (450) while its status is QueryReplied — not
Approved or PartiallyApproved — so the claimed equivalence fails. -/
theorem C6_counterexample :
    (dictGet (run c6ops).pre_authorizations "C1").map
      (fun p => (p.approved_amount, p.approval_status)) =
      some (some 450, .queryReplied) := by
  rfl

/-- Claim C6 (amended): in every reachable state, a pre-authorization with
status Approved has `approvedAmount` set, and a pre-authorization with
`approvedAmount` set has status Approved or QueryReplied (a query recorded
after approval moves the status to QueryReplied but keeps the amount). -/
theorem C6_amended_approved_amount_invariant (s : TPAState) (h : Reachable s) :
    PreApprovalInv s := by
  obtain ⟨ops, rfl⟩ := h
  exact preApprovalInv_foldl ops initState preApprovalInv_init

/-- Witness for C6 (amended) at the concrete reachable state `run c6ops`. -/
theorem C6_witness : PreApprovalInv (run c6ops) :=
  C6_amended_approved_amount_invariant (run c6ops) ⟨c6ops, rfl⟩

/-! ## Claim C9: query sequences -/

/-- Operations that re-create the record stored for `cid`: `createRequest` of
either tracker.  Both replace the whole record, resetting its query list. -/
def isCreateFor (cid : String) : Op → Bool
  | .sendPre c _ _ _ => c == cid
  | .finalGen c _ _ _ => c == cid
  | _ => false

/-- Operations reaching a final-authorization record with one query entry. -/
def c9ops : List Op :=
  [.sendPre "C1" patW 500 0,
   .preApprove "C1" ⟨450, "AP1", "d1"⟩,
   .finalGen "C1" ⟨600, []⟩ (some "L1") 1,
   .finalQuery "C1" "justify" (some "R1") "t1"]

/-- Counterexample to claim C9: in the reachable state `run c9ops` the final
record of `C1` has one query entry; repeating the Final-Authorization
Tracker's `createRequest` — a core operation — replaces the record and its
query list becomes empty, so the recorded entry is removed. -/
theorem C9_counterexample :
    (dictGet (run c9ops).final_authorizations "C1").map (·.queries) =
      some [⟨"t1", "justify", "R1"⟩] ∧
    (dictGet (step (run c9ops) (.finalGen "C1" ⟨700, []⟩ (some "L2") 2)).final_authorizations
      "C1").map (·.queries) = some [] := by
  constructor
  · rfl
  · rfl

/-- Claim C9 (amended): `recordQuery` succeeds from every prior status when
generation succeeds, appending exactly one `{timestamp, query, response}`
entry at the end of the record's query sequence and setting the status to
QueryReplied, on both trackers; and every core operation other than a
`createRequest` for the same case only extends a record's query sequence at
its end — entries are never removed, replaced or reordered.  A repeated
`createRequest` replaces the whole record, resetting its query list. -/
theorem C9_amended_queries_append_only (s : TPAState) (cid : String)
    (q now html : String) (p : PreAuthorizationRecord)
    (f : FinalAuthorizationRecord) (dr : DischargeData) (op : Op)
    (hp : dictGet s.pre_authorizations cid = some p)
    (hf : dictGet s.final_authorizations cid = some f)
    (hd : dictGet s.discharge_records cid = some dr)
    (hop : isCreateFor cid op = false) :
    (∃ p', dictGet (handle_preauth_query s cid q (some html) now).1.pre_authorizations
        cid = some p' ∧
      p'.queries = p.queries ++ [⟨now, q, html⟩] ∧
      p'.approval_status = .queryReplied ∧
      (handle_preauth_query s cid q (some html) now).2 = .ok html) ∧
    (∃ f', dictGet (handle_final_auth_query s cid q (some html) now).1.final_authorizations
        cid = some f' ∧
      f'.queries = f.queries ++ [⟨now, q, html⟩] ∧
      f'.approval_status = .queryReplied ∧
      (handle_final_auth_query s cid q (some html) now).2 = .ok html) ∧
    (∃ p', dictGet (step s op).pre_authorizations cid = some p' ∧
      ∃ t, p'.queries = p.queries ++ t) ∧
    (∃ f', dictGet (step s op).final_authorizations cid = some f' ∧
      ∃ t, f'.queries = f.queries ++ t) := by
  refine ⟨?_, ?_, ?_, ?_⟩
  · unfold handle_preauth_query
    rw [hp]
    dsimp only
    exact ⟨_, dictGet_dictSet_self _ _ _, rfl, rfl, rfl⟩
  · unfold handle_final_auth_query
    rw [hf, hd]
    dsimp only
    exact ⟨_, dictGet_dictSet_self _ _ _, rfl, rfl, rfl⟩
  · cases op with
    | sendPre c pd cost now1 =>
      have hc : cid ≠ c := Ne.symm (by simpa [isCreateFor] using hop)
      dsimp only [step]
      rw [(sendPre_frame s c pd cost now1).2.2.2, dictGet_dictSet_ne _ _ _ _ hc]
      exact ⟨p, hp, [], (List.append_nil _).symm⟩
    | preQuery c q1 gen now1 =>
      dsimp only [step]
      rcases preQuery_pre_char s c q1 gen now1 with hch | ⟨pa, html1, hpa, hgen, hch⟩
      · rw [hch]
        exact ⟨p, hp, [], (List.append_nil _).symm⟩
      · rw [hch]
        by_cases hcc : cid = c
        · subst hcc
          rw [dictGet_dictSet_self]
          rw [hp] at hpa
          obtain rfl := Option.some.inj hpa
          exact ⟨_, rfl, [⟨now1, q1, html1⟩], rfl⟩
        · rw [dictGet_dictSet_ne _ _ _ _ hcc]
          exact ⟨p, hp, [], (List.append_nil _).symm⟩
    | preApprove c ad =>
      dsimp only [step]
      rcases preApprove_pre_char s c ad with hch | ⟨pa, hpa, hch⟩
      · rw [hch]
        exact ⟨p, hp, [], (List.append_nil _).symm⟩
      · rw [hch]
        by_cases hcc : cid = c
        · subst hcc
          rw [dictGet_dictSet_self]
          rw [hp] at hpa
          obtain rfl := Option.some.inj hpa
          exact ⟨_, rfl, [], (List.append_nil _).symm⟩
        · rw [dictGet_dictSet_ne _ _ _ _ hcc]
          exact ⟨p, hp, [], (List.append_nil _).symm⟩
    | finalGen c dd gen now1 =>
      dsimp only [step]
      rw [(finalGen_frame s c dd gen now1).2]
      exact ⟨p, hp, [], (List.append_nil _).symm⟩
    | finalQuery c q1 gen now1 =>
      dsimp only [step]
      rw [(finalQuery_frame s c q1 gen now1).2.1]
      exact ⟨p, hp, [], (List.append_nil _).symm⟩
    | finalApprove c fad ana =>
      dsimp only [step]
      rw [(finalApprove_frame s c fad ana).2.1]
      exact ⟨p, hp, [], (List.append_nil _).symm⟩
  · cases op with
    | sendPre c pd cost now1 =>
      dsimp only [step]
      rw [(sendPre_frame s c pd cost now1).1]
      exact ⟨f, hf, [], (List.append_nil _).symm⟩
    | preQuery c q1 gen now1 =>
      dsimp only [step]
      rw [(preQuery_frame s c q1 gen now1).2.1]
      exact ⟨f, hf, [], (List.append_nil _).symm⟩
    | preApprove c ad =>
      dsimp only [step]
      rw [(preApprove_frame s c ad).2.1]
      exact ⟨f, hf, [], (List.append_nil _).symm⟩
    | finalGen c dd gen now1 =>
      have hc : cid ≠ c := Ne.symm (by simpa [isCreateFor] using hop)
      dsimp only [step]
      rcases finalGen_final_char s c dd gen now1 with hch | ⟨pa, hpa, html1, hgen, hch⟩
      · rw [hch]
        exact ⟨f, hf, [], (List.append_nil _).symm⟩
      · rw [hch, dictGet_dictSet_ne _ _ _ _ hc]
        exact ⟨f, hf, [], (List.append_nil _).symm⟩
    | finalQuery c q1 gen now1 =>
      dsimp only [step]
      rcases finalQuery_final_char s c q1 gen now1 with hch | ⟨fa, html1, hfa, hgen, hch⟩
      · rw [hch]
        exact ⟨f, hf, [], (List.append_nil _).symm⟩
      · rw [hch]
        by_cases hcc : cid = c
        · subst hcc
          rw [dictGet_dictSet_self]
          rw [hf] at hfa
          obtain rfl := Option.some.inj hfa
          exact ⟨_, rfl, [⟨now1, q1, html1⟩], rfl⟩
        · rw [dictGet_dictSet_ne _ _ _ _ hcc]
          exact ⟨f, hf, [], (List.append_nil _).symm⟩
    | finalApprove c fad ana =>
      dsimp only [step]
      rcases finalApprove_final_char s c fad ana with hch | ⟨fa, hfa, hch⟩
      · rw [hch]
        exact ⟨f, hf, [], (List.append_nil _).symm⟩
      · rw [hch]
        by_cases hcc : cid = c
        · subst hcc
          rw [dictGet_dictSet_self]
          rw [hf] at hfa
          obtain rfl := Option.some.inj hfa
          exact ⟨_, rfl, [], (List.append_nil _).symm⟩
        · rw [dictGet_dictSet_ne _ _ _ _ hcc]
          exact ⟨f, hf, [], (List.append_nil _).symm⟩

/-- A pending final-authorization record for `C1`: bill 600, snapshot 450. -/
def faW2 : FinalAuthorizationRecord :=
  { case_id := "C1", request_date := 1, final_bill_amount := 600,
    pre_auth_approved := 450, additional_amount_requested := 150,
    approval_status := .pending, approved_amount := none,
    approval_number := none, approval_date := none, queries := [],
    deductions := [], rejection_reason := none,
    documents_submitted := ["Discharge Summary", "Final Bill (itemized)",
      "Investigation Reports", "Pharmacy Bills", "OT Notes", "IPD Charts"] }

/-- A state with a registered case, a pre-authorization, a final
authorization and a discharge record, all for `C1`. -/
def stFull : TPAState :=
  { cases := [("C1", patW)], pre_authorizations := [("C1", paW)],
    final_authorizations := [("C1", faW2)],
    discharge_records := [("C1", ⟨600, []⟩)] }

/-- Witness for C9 (amended) at the concrete state `stFull`, taking the
non-creating operation to be the final approval of `C1`. -/
theorem C9_witness :
    (∃ p', dictGet (handle_preauth_query stFull "C1" "q" (some "h") "t").1.pre_authorizations
        "C1" = some p' ∧
      p'.queries = paW.queries ++ [⟨"t", "q", "h"⟩] ∧
      p'.approval_status = .queryReplied ∧
      (handle_preauth_query stFull "C1" "q" (some "h") "t").2 = .ok "h") ∧
    (∃ f', dictGet (handle_final_auth_query stFull "C1" "q" (some "h") "t").1.final_authorizations
        "C1" = some f' ∧
      f'.queries = faW2.queries ++ [⟨"t", "q", "h"⟩] ∧
      f'.approval_status = .queryReplied ∧
      (handle_final_auth_query stFull "C1" "q" (some "h") "t").2 = .ok "h") ∧
    (∃ p', dictGet (step stFull (.finalApprove "C1" ⟨500, "A2", "d2", none⟩
        (some "x"))).pre_authorizations "C1" = some p' ∧
      ∃ t, p'.queries = paW.queries ++ t) ∧
    (∃ f', dictGet (step stFull (.finalApprove "C1" ⟨500, "A2", "d2", none⟩
        (some "x"))).final_authorizations "C1" = some f' ∧
      ∃ t, f'.queries = faW2.queries ++ t) :=
  C9_amended_queries_append_only stFull "C1" "q" "t" "h" paW faW2 ⟨600, []⟩
    (.finalApprove "C1" ⟨500, "A2", "d2", none⟩ (some "x")) rfl rfl rfl rfl

end TPA
